import Mathlib

/-!
# Verification of the Tegra PMC power-domain / memory-controller hot-reset core

Shallow embedding of `drivers/soc/tegra/pmc.c` (power-gate primitive,
power-domain on/off sequencing, memory-controller hot-reset flush, I/O rail
deep-power-down) together with proofs of the specification claims.

Hardware reads, external clock/reset/regulator operations and sleeps are
modelled by explicit oracles (functions from a call index to the value read,
or per-call result values).  Machine integers are modelled as `Nat` with
explicit 32-bit masking where the C code relies on truncation.  C functions
returning `0`/negative `errno` are modelled as `Except Kerr Unit`.
Polling loops are modelled with an explicit fuel argument: `none` means the
loop is still running after `fuel` iterations; a loop that terminates for
every oracle does so for a fuel derived from its hard deadline.
-/

namespace TegraPmc

/-- Kernel error results used by this subsystem: `-EINVAL`, `-ETIMEDOUT`,
`-ENOMEM`, or some other driver-specific negative code. -/
inductive Kerr where
  | inval
  | etimedout
  | nomem
  | code (n : Nat)
deriving DecidableEq, Repr

instance {ε α : Type} [DecidableEq ε] [DecidableEq α] : DecidableEq (Except ε α) :=
  fun x y =>
    match x, y with
    | .ok a, .ok b =>
      if h : a = b then isTrue (congrArg Except.ok h)
      else isFalse (fun hc => h (Except.ok.inj hc))
    | .error a, .error b =>
      if h : a = b then isTrue (congrArg Except.error h)
      else isFalse (fun hc => h (Except.error.inj hc))
    | .ok _, .error _ => isFalse (fun hc => Except.noConfusion hc)
    | .error _, .ok _ => isFalse (fun hc => Except.noConfusion hc)

/-- Result of a C function returning `0` on success or a negative errno. -/
abbrev KRes := Except Kerr Unit

/-- `true` iff the C return value is `0` (success). -/
def resOk : KRes → Bool
  | .ok _ => true
  | .error _ => false

/-! ## Register offsets and constants (from `pmc.c`) -/

def DPD_SAMPLE : Nat := 0x020
def DPD_SAMPLE_ENABLE : Nat := 1
def DPD_SAMPLE_DISABLE : Nat := 0

def PWRGATE_TOGGLE : Nat := 0x30
def PWRGATE_TOGGLE_START : Nat := 1 <<< 8

def REMOVE_CLAMPING : Nat := 0x34
def PWRGATE_STATUS : Nat := 0x38

def IO_DPD_REQ : Nat := 0x1b8
def IO_DPD_REQ_CODE_OFF : Nat := 1 <<< 30
def IO_DPD_REQ_CODE_ON : Nat := 2 <<< 30
def IO_DPD_REQ_CODE_MASK : Nat := 3 <<< 30

def IO_DPD_STATUS : Nat := 0x1bc
def IO_DPD2_REQ : Nat := 0x1c0
def IO_DPD2_STATUS : Nat := 0x1c4
def SEL_DPD_TIM : Nat := 0x1c8

def GPU_RG_CNTRL : Nat := 0x2d4

def MAX_CLK_NUM : Nat := 5
def MAX_RESET_NUM : Nat := 5
def MAX_SWGROUP_NUM : Nat := 5

/-- All 32 bits set; `&&&` with (`u32Mask ^^^ m`) models the C `&= ~m` on `u32`. -/
def u32Mask : Nat := 0xffffffff

/-- Modelled from the spec: the numeric partition ids come from the header
`include/soc/tegra/pmc.h`, which is not under `src/`; the values below are the
standard Tegra partition indices.  Every claim uses these ids symbolically
(`CPU`, `3D`, `PCIE`, `VDEC`, `C0NC`, `IRAM`, ...), so only their distinctness
matters to the proofs. -/
def TEGRA_POWERGATE_CPU : Nat := 0
def TEGRA_POWERGATE_3D : Nat := 1
def TEGRA_POWERGATE_VENC : Nat := 2
def TEGRA_POWERGATE_PCIE : Nat := 3
def TEGRA_POWERGATE_VDEC : Nat := 4
def TEGRA_POWERGATE_L2 : Nat := 5
def TEGRA_POWERGATE_MPE : Nat := 6
def TEGRA_POWERGATE_HEG : Nat := 7
def TEGRA_POWERGATE_SATA : Nat := 8
def TEGRA_POWERGATE_CPU1 : Nat := 9
def TEGRA_POWERGATE_CPU2 : Nat := 10
def TEGRA_POWERGATE_CPU3 : Nat := 11
def TEGRA_POWERGATE_CELP : Nat := 12
def TEGRA_POWERGATE_CPU0 : Nat := 14
def TEGRA_POWERGATE_C0NC : Nat := 15
def TEGRA_POWERGATE_C1NC : Nat := 16
def TEGRA_POWERGATE_DIS : Nat := 18
def TEGRA_POWERGATE_IRAM : Nat := 24

/-! ## Power-gate primitive: `tegra_pmc_powergate_set`

The hardware is modelled by `reads k` = value of the `k`-th read of
`PWRGATE_STATUS` (read `0` is the initial state check, reads `1, 2, ...` are
the polling reads), and `sleep k` = the actual duration in microseconds of the
`usleep_range(10, 20)` call after the `k`-th polling read.  Time is counted in
microseconds; the C deadline `jiffies + msecs_to_jiffies(50)` becomes the
fixed horizon of 50000 µs. -/

structure PgSetEnv where
  reads : Nat → Nat
  sleep : Nat → Nat

/-- Outcome of `tegra_pmc_powergate_set`: the returned errno, the number of
writes made to `PWRGATE_TOGGLE`, and the number of polling reads of
`PWRGATE_STATUS` performed. -/
structure PgSetOut where
  res : KRes
  toggleWrites : Nat
  polls : Nat
deriving DecidableEq, Repr

/-- The polling loop of `tegra_pmc_powergate_set`:
`while (time_before(jiffies, timeout)) { read status; if bit == mask break;
usleep_range(10, 20); }`.  `k` is the next read index, `now` the elapsed time
in µs.  Returns the errno together with the index of the last polling read
(`k - 1` polls were made when the deadline is hit first). -/
def pgPollGo (env : PgSetEnv) (id : Nat) (target : Bool) :
    Nat → Nat → Nat → Option (KRes × Nat)
  | _, _, 0 => none
  | k, now, fuel + 1 =>
    if now < 50000 then
      if (env.reads k).testBit id = target then some (.ok (), k)
      else pgPollGo env id target (k + 1) (now + env.sleep k) fuel
    else some (.error .etimedout, k - 1)

/-- `tegra_pmc_powergate_set(powergate, new_state)` (pmc.c:398):
read `PWRGATE_STATUS`; if the partition bit already equals the requested
state, return `0` without writing; otherwise write
`PWRGATE_TOGGLE_START | id` to `PWRGATE_TOGGLE` once and poll until the bit
matches or 50 ms have elapsed. -/
def tegra_pmc_powergate_set (env : PgSetEnv) (id : Nat) (newState : Bool)
    (fuel : Nat) : Option PgSetOut :=
  if (env.reads 0).testBit id = newState then some ⟨.ok (), 0, 0⟩
  else
    match pgPollGo env id newState 1 0 fuel with
    | some (r, p) => some ⟨r, 1, p⟩
    | none => none

/-! ## Memory-controller hot-reset protocol (`tegra114_mc_flush` etc.)

`reads k` is the value of the `k`-th read of the hot-reset *status* register
inside the stabilization loop.  The control-register value observed by the
read-modify-write is `ctrlRead`. -/

/-- `struct tegra_mc_hotreset` (soc/tegra/mc.h). -/
structure tegra_mc_hotreset where
  swgroup : Nat
  ctrl : Nat
  status : Nat
  bit : Nat
deriving DecidableEq, Repr

/-- Register-access events on the memory controller. -/
inductive McEv where
  | read (off : Nat)
  | write (off val : Nat)
deriving DecidableEq, Repr

/-- Inner loop of `tegra114_stable_hotreset_check`: compare the next `fuel`
reads against `prv`, failing at the first mismatch.  Returns
(stable?, `*stat`, next read index); on a mismatch the C code leaves `*stat`
untouched and the caller's `val` remains `0`. -/
def stableCheckGo (reads : Nat → Nat) (prv : Nat) :
    Nat → Nat → Bool × Nat × Nat
  | k, 0 => (true, prv, k)
  | k, fuel + 1 =>
    if reads k ≠ prv then (false, 0, k + 1)
    else stableCheckGo reads prv (k + 1) fuel

/-- `tegra114_stable_hotreset_check` (pmc.c:2526): read the status register
once, then five more times; report stable only if all five repeat reads equal
the first. -/
def tegra114_stable_hotreset_check (reads : Nat → Nat) (k : Nat) :
    Bool × Nat × Nat :=
  stableCheckGo reads (reads k) (k + 1) 5

/-- The unbounded polling loop of `tegra114_mc_flush`:
`do { udelay(10); if (!stable_check) continue; } while (!(val & BIT(bit)))`.
Returns the next unread status index on convergence, `none` if still looping
after `fuel` attempts. -/
def flushLoopGo (reads : Nat → Nat) (bit : Nat) : Nat → Nat → Option Nat
  | _, 0 => none
  | k, fuel + 1 =>
    match tegra114_stable_hotreset_check reads k with
    | (st, val, k') =>
      if st && val.testBit bit then some k'
      else flushLoopGo reads bit k' fuel

/-- `tegra114_mc_flush` (pmc.c:2549): reject a null controller or hot-reset
descriptor with `-EINVAL`; otherwise set the group's bit in the control
register, re-read it, and poll the status register (stable-read loop, no
deadline) until the bit is observed set.  The trace records the
control-register accesses; status polling goes through `reads`. -/
def tegra114_mc_flush (mc : Option Unit) (hotreset : Option tegra_mc_hotreset)
    (ctrlRead : Nat) (reads : Nat → Nat) (fuel : Nat) :
    Option (KRes × List McEv) :=
  match mc, hotreset with
  | some _, some hr =>
    match flushLoopGo reads hr.bit 0 fuel with
    | some _ =>
      some (.ok (), [.read hr.ctrl, .write hr.ctrl (ctrlRead ||| (1 <<< hr.bit)),
                     .read hr.ctrl])
    | none => none
  | _, _ => some (.error .inval, [])

/-- Clear bit `i` of a 32-bit value: the C `val &= ~BIT(bit)`. -/
def clearBit32 (v i : Nat) : Nat := v &&& (u32Mask ^^^ (1 <<< i))

/-- `tegra114_mc_flush_done` (pmc.c:2578): reject null arguments with
`-EINVAL`; otherwise clear the group's bit in the control register and
re-read it for ordering.  No polling of the status register. -/
def tegra114_mc_flush_done (mc : Option Unit)
    (hotreset : Option tegra_mc_hotreset) (ctrlRead : Nat) :
    KRes × List McEv :=
  match mc, hotreset with
  | some _, some hr =>
    (.ok (), [.read hr.ctrl, .write hr.ctrl (clearBit32 ctrlRead hr.bit),
              .read hr.ctrl])
  | _, _ => (.error .inval, [])

/-! ## I/O rail deep-power-down controller -/

/-- `DIV_ROUND_UP(n, d)` from the kernel: `(n + d - 1) / d`. -/
def DIV_ROUND_UP (n d : Nat) : Nat := (n + d - 1) / d

/-- Oracle for the I/O-rail paths: `pclkRate` is the result of
`clk_get_sys(NULL, "pclk")` plus `clk_get_rate`; `reqRead` the value read from
the request register; `reads k` the `k`-th polling read of the status
register; `sleep k` the duration of the `k`-th `usleep_range(250, 1000)`. -/
structure RailEnv where
  pclkRate : Except Kerr Nat
  reqRead : Nat
  reads : Nat → Nat
  sleep : Nat → Nat

/-- `tegra_io_rail_prepare` (pmc.c:956): validate the id (bits 30/31 of each
bank are reserved; ids above 63 do not exist), pick the bank, then enable DPD
sampling and program `SEL_DPD_TIM` from the pclk rate.  Returns
(request offset, status offset, bit) and the trace of PMC register writes as
(offset, value) pairs. -/
def tegra_io_rail_prepare (env : RailEnv) (id : Nat) :
    Except Kerr (Nat × Nat × Nat) × List (Nat × Nat) :=
  let bit := id % 32
  if id > 63 ∨ bit = 30 ∨ bit = 31 then (.error .inval, [])
  else
    let request := if id < 32 then IO_DPD_REQ else IO_DPD2_REQ
    let status := if id < 32 then IO_DPD_STATUS else IO_DPD2_STATUS
    match env.pclkRate with
    | .error e => (.error e, [])
    | .ok rate =>
      let value := DIV_ROUND_UP 200 (DIV_ROUND_UP 1000000000 rate)
      (.ok (request, status, bit),
        [(DPD_SAMPLE, DPD_SAMPLE_ENABLE), (SEL_DPD_TIM, value)])

/-- `tegra_io_rail_poll` (pmc.c:996): poll the status register until
`(value & mask) == val` or `timeoutMs` milliseconds elapse, sleeping
250–1000 µs between reads.  `none` means the loop is still running after
`fuel` reads. -/
def tegra_io_rail_poll (env : RailEnv) (mask val timeoutMs : Nat) :
    Nat → Nat → Nat → Option KRes
  | _, _, 0 => none
  | k, now, fuel + 1 =>
    if now < timeoutMs * 1000 then
      if (env.reads k) &&& mask = val then some (.ok ())
      else tegra_io_rail_poll env mask val timeoutMs (k + 1) (now + env.sleep k) fuel
    else some (.error .etimedout)

/-- `tegra_io_rail_power_on` (pmc.c:1019): prepare (validation + sampling +
timing), then read-modify-write the request register with the rail's bit and
the `OFF` request code, poll the status bit to `0` with a 250 ms deadline,
and disable sampling on success only. -/
def tegra_io_rail_power_on (env : RailEnv) (id : Nat) (fuel : Nat) :
    Option (KRes × List (Nat × Nat)) :=
  match tegra_io_rail_prepare env id with
  | (.error e, t) => some (.error e, t)
  | (.ok (request, _status, bit), t) =>
    let mask := 1 <<< bit
    let value := ((env.reqRead ||| mask) &&& (u32Mask ^^^ IO_DPD_REQ_CODE_MASK))
                   ||| IO_DPD_REQ_CODE_OFF
    let t := t ++ [(request, value)]
    match tegra_io_rail_poll env mask 0 250 0 0 fuel with
    | none => none
    | some (.error e) => some (.error e, t)
    | some (.ok ()) => some (.ok (), t ++ [(DPD_SAMPLE, DPD_SAMPLE_DISABLE)])

/-- `tegra_io_rail_power_off` (pmc.c:1047): same as power-on with the `ON`
request code and polling the status bit to `1`. -/
def tegra_io_rail_power_off (env : RailEnv) (id : Nat) (fuel : Nat) :
    Option (KRes × List (Nat × Nat)) :=
  match tegra_io_rail_prepare env id with
  | (.error e, t) => some (.error e, t)
  | (.ok (request, _status, bit), t) =>
    let mask := 1 <<< bit
    let value := ((env.reqRead ||| mask) &&& (u32Mask ^^^ IO_DPD_REQ_CODE_MASK))
                   ||| IO_DPD_REQ_CODE_ON
    let t := t ++ [(request, value)]
    match tegra_io_rail_poll env mask mask 250 0 0 fuel with
    | none => none
    | some (.error e) => some (.error e, t)
    | some (.ok ()) => some (.ok (), t ++ [(DPD_SAMPLE, DPD_SAMPLE_DISABLE)])

/-! ## Power-domain state machine (`tegra_pmc_powergate_power_on` / `_power_off`)

The per-domain descriptor (`struct tegra_powergate`) holds bounded arrays of
clock, reset and swgroup handles terminated by the first null entry; every
loop over them stops at the first null, so only the length of the initial
non-null prefix is observable and is what the model records.  Calls into the
clock, reset, regulator and memory-controller subsystems are modelled by an
environment giving each call's result, and each sequence step is recorded as
an event. -/

/-- The three observable states of the `vdd` regulator pointer: never
assigned (`NULL`), holding an `ERR_PTR` from a failed
`devm_regulator_get_optional`, or a valid regulator. -/
inductive VddPtr where
  | null
  | errp
  | reg
deriving DecidableEq, Repr

/-- The fields of `struct tegra_powergate` (pmc.c:111) that the power
sequences read.  `numClk`/`numReset`/`numSwgroup` are the lengths of the
non-null prefixes of `clk[]`, `reset[]`, `swgroup[]`. -/
structure Powergate where
  id : Nat
  numClk : Nat
  numReset : Nat
  numSwgroup : Nat
  is_vdd : Bool
  vdd : VddPtr
deriving DecidableEq, Repr

/-- The chip-variant fields of `struct tegra_pmc_soc` (pmc.c:131) used by the
power sequences. -/
structure Soc where
  num_powergates : Nat
  has_gpu_clamps : Bool
  is_legacy_powergate : Bool
deriving DecidableEq, Repr

/-- Observable steps of the power-on / power-off sequences, in execution
order.  Indices are positions in the domain's clock / reset / swgroup
arrays. -/
inductive Ev where
  | regulatorGet
  | regulatorEnable
  | regulatorDisable
  | pwrgateSet (id : Nat) (state : Bool)
  | udelay (us : Nat)
  | resetAssert (i : Nat)
  | resetDeassert (i : Nat)
  | clkEnable (i : Nat)
  | clkDisable (i : Nat)
  | pmcWrite (off val : Nat)
  | mcFlush (i : Nat)
  | mcFlushDone (i : Nat)
deriving DecidableEq, Repr

/-- Outcome of `of_find_device_by_node` + `devm_regulator_get_optional` in
`tegra_powergate_get_regulator`: no platform device, an `ERR_PTR` regulator,
or success. -/
inductive RegLookup where
  | noDevice
  | errPtr
  | found
deriving DecidableEq, Repr

/-- Results of the external subsystem calls made by one power-on/off
sequence.  Per-index results model per-handle clock/reset/swgroup calls;
`pwrgateSetRes b` abstracts the outcome of `tegra_pmc_powergate_set` for
target state `b` (that primitive is modelled in detail separately). -/
structure Env where
  regulatorLookup : RegLookup
  regulatorEnableRes : KRes
  regulatorDisableRes : KRes
  pwrgateSetRes : Bool → KRes
  clkEnableRes : Nat → KRes
  resetAssertRes : Nat → KRes
  resetDeassertRes : Nat → KRes
  mcFlushRes : Nat → KRes
  mcFlushDoneRes : Nat → KRes

/-- Sequence two traced steps: run the second only if the first succeeded,
concatenating traces; a failure returns immediately with its error
(`if (err) goto out;`). -/
def andThen (a : KRes × List Ev) (k : Unit → KRes × List Ev) : KRes × List Ev :=
  match a with
  | (.ok (), t) =>
    match k () with
    | (r, t') => (r, t ++ t')
  | (.error e, t) => (.error e, t)

/-- Loop body shared by `tegra_pmc_powergate_reset_assert` / `_deassert` /
`_mc_flush` / `_mc_flush_done` (pmc.c:473-538): apply `res` to indices
`i, i+1, ...` of the non-null prefix (length `present`), stopping at the
first failure and returning its error. -/
def seqOpsGo (present : Nat) (res : Nat → KRes) (mk : Nat → Ev) :
    Nat → Nat → KRes × List Ev
  | _, 0 => (.ok (), [])
  | i, fuel + 1 =>
    if i < present then
      match res i with
      | .ok () =>
        match seqOpsGo present res mk (i + 1) fuel with
        | (r, t) => (r, mk i :: t)
      | .error e => (.error e, [mk i])
    else (.ok (), [])

/-- `tegra_pmc_powergate_enable_clocks` (pmc.c:438): enable `clk[0..]` in
order; on the first failure disable the already-enabled clocks in reverse
order (`while (i--) clk_disable_unprepare(...)`) and return the error. -/
def enableClocksGo (env : Env) (pg : Powergate) :
    Nat → Nat → KRes × List Ev
  | _, 0 => (.ok (), [])
  | i, fuel + 1 =>
    if i < pg.numClk then
      match env.clkEnableRes i with
      | .ok () =>
        match enableClocksGo env pg (i + 1) fuel with
        | (.ok (), t) => (.ok (), .clkEnable i :: t)
        | (.error e, t) => (.error e, .clkEnable i :: (t ++ [.clkDisable i]))
      | .error e => (.error e, [.clkEnable i])
    else (.ok (), [])

def tegra_pmc_powergate_enable_clocks (env : Env) (pg : Powergate) :
    KRes × List Ev :=
  enableClocksGo env pg 0 MAX_CLK_NUM

/-- `tegra_pmc_powergate_disable_clocks` (pmc.c:460): disable `clk[0..]` in
registration (forward) order; no result. -/
def disableClocksGo (pg : Powergate) : Nat → Nat → List Ev
  | _, 0 => []
  | i, fuel + 1 =>
    if i < pg.numClk then .clkDisable i :: disableClocksGo pg (i + 1) fuel
    else []

def tegra_pmc_powergate_disable_clocks (pg : Powergate) : List Ev :=
  disableClocksGo pg 0 MAX_CLK_NUM

def tegra_pmc_powergate_reset_assert (env : Env) (pg : Powergate) :
    KRes × List Ev :=
  seqOpsGo pg.numReset env.resetAssertRes .resetAssert 0 MAX_RESET_NUM

def tegra_pmc_powergate_reset_deassert (env : Env) (pg : Powergate) :
    KRes × List Ev :=
  seqOpsGo pg.numReset env.resetDeassertRes .resetDeassert 0 MAX_RESET_NUM

def tegra_pmc_powergate_mc_flush (env : Env) (pg : Powergate) :
    KRes × List Ev :=
  seqOpsGo pg.numSwgroup env.mcFlushRes .mcFlush 0 MAX_SWGROUP_NUM

def tegra_pmc_powergate_mc_flush_done (env : Env) (pg : Powergate) :
    KRes × List Ev :=
  seqOpsGo pg.numSwgroup env.mcFlushDoneRes .mcFlushDone 0 MAX_SWGROUP_NUM

/-- `tegra_powergate_get_regulator` (pmc.c:540): `-EINVAL` unless the domain
is regulator-backed; reuse an already-valid `vdd`; otherwise look up the
platform device and the optional `vdd` regulator, recording the possibly-err
pointer. -/
def tegra_powergate_get_regulator (env : Env) (pg : Powergate) :
    KRes × Powergate :=
  if ¬ pg.is_vdd then (.error .inval, pg)
  else if pg.vdd = .reg then (.ok (), pg)
  else
    match env.regulatorLookup with
    | .noDevice => (.error .inval, pg)
    | .errPtr => (.error .inval, { pg with vdd := .errp })
    | .found => (.ok (), { pg with vdd := .reg })

/-- `tegra_powergate_remove_clamping` (pmc.c:256): `-EINVAL` for a missing
SoC descriptor or out-of-range id; for the 3D partition on a variant with
dedicated GPU clamps write `0` to `GPU_RG_CNTRL`; otherwise write a one-bit
mask to `REMOVE_CLAMPING`, with the VDEC and PCIE bits swapped relative to
their partition ids. -/
def tegra_powergate_remove_clamping (soc : Option Soc) (id : Nat) :
    KRes × List Ev :=
  match soc with
  | none => (.error .inval, [])
  | some soc =>
    if soc.num_powergates ≤ id then (.error .inval, [])
    else if id = TEGRA_POWERGATE_3D ∧ soc.has_gpu_clamps then
      (.ok (), [.pmcWrite GPU_RG_CNTRL 0])
    else
      let mask : Nat :=
        if id = TEGRA_POWERGATE_VDEC then 1 <<< TEGRA_POWERGATE_PCIE
        else if id = TEGRA_POWERGATE_PCIE then 1 <<< TEGRA_POWERGATE_VDEC
        else 1 <<< id
      (.ok (), [.pmcWrite REMOVE_CLAMPING mask])

/-- `tegra_pmc_powergate_power_on` (pmc.c:561): regulator-or-gate on, then
(on legacy variants) reset assert, clock enable (skipped for PCIE), clamp
removal, reset deassert, hot-reset done signalling, and a final clock
disable (skipped for PCIE), each checked step followed by `udelay(10)` except
the final clock disable. -/
def tegra_pmc_powergate_power_on (env : Env) (soc : Soc) (pg : Powergate) :
    KRes × List Ev :=
  andThen
    (if pg.is_vdd then
      match tegra_powergate_get_regulator env pg with
      | (.ok (), _) => (env.regulatorEnableRes, [.regulatorGet, .regulatorEnable])
      | (.error e, _) => (.error e, [.regulatorGet])
    else (env.pwrgateSetRes true, [.pwrgateSet pg.id true])) fun _ =>
  andThen (.ok (), [.udelay 10]) fun _ =>
  andThen
    (if soc.is_legacy_powergate then
      andThen (tegra_pmc_powergate_reset_assert env pg) fun _ =>
        (.ok (), [.udelay 10])
    else (.ok (), [])) fun _ =>
  andThen
    (if pg.id ≠ TEGRA_POWERGATE_PCIE then
      andThen (tegra_pmc_powergate_enable_clocks env pg) fun _ =>
        (.ok (), [.udelay 10])
    else (.ok (), [])) fun _ =>
  andThen (tegra_powergate_remove_clamping (some soc) pg.id) fun _ =>
  andThen (.ok (), [.udelay 10]) fun _ =>
  andThen (tegra_pmc_powergate_reset_deassert env pg) fun _ =>
  andThen (.ok (), [.udelay 10]) fun _ =>
  andThen (tegra_pmc_powergate_mc_flush_done env pg) fun _ =>
  andThen (.ok (), [.udelay 10]) fun _ =>
  (if pg.id ≠ TEGRA_POWERGATE_PCIE then
    (.ok (), tegra_pmc_powergate_disable_clocks pg)
  else (.ok (), []))

/-- The always-on exclusion set of `tegra_pmc_powergate_power_off`
(pmc.c:636, the `switch (powergate->id)` cases): the CPU partitions, `C0NC`
and `IRAM`. -/
def alwaysOn (id : Nat) : Prop :=
  id = TEGRA_POWERGATE_CPU ∨ id = TEGRA_POWERGATE_CPU1 ∨
  id = TEGRA_POWERGATE_CPU2 ∨ id = TEGRA_POWERGATE_CPU3 ∨
  id = TEGRA_POWERGATE_CPU0 ∨ id = TEGRA_POWERGATE_C0NC ∨
  id = TEGRA_POWERGATE_IRAM

instance (id : Nat) : Decidable (alwaysOn id) := by
  unfold alwaysOn; infer_instance

/-- `tegra_pmc_powergate_power_off` (pmc.c:626): refuse the always-on
partitions outright; otherwise (on non-legacy variants) enable clocks and
signal hot-reset flush, assert resets, (non-legacy) disable the clocks, and
finally disable the regulator if `vdd` is non-null, else gate the partition
off. -/
def tegra_pmc_powergate_power_off (env : Env) (soc : Soc) (pg : Powergate) :
    KRes × List Ev :=
  if alwaysOn pg.id then
    (.error .inval, [])
  else
    andThen
      (if ¬ soc.is_legacy_powergate then
        andThen (tegra_pmc_powergate_enable_clocks env pg) fun _ =>
        andThen (.ok (), [.udelay 10]) fun _ =>
        andThen (tegra_pmc_powergate_mc_flush env pg) fun _ =>
          (.ok (), [.udelay 10])
      else (.ok (), [])) fun _ =>
    andThen (tegra_pmc_powergate_reset_assert env pg) fun _ =>
    andThen (.ok (), [.udelay 10]) fun _ =>
    andThen
      (if ¬ soc.is_legacy_powergate then
        (.ok (), tegra_pmc_powergate_disable_clocks pg ++ [.udelay 10])
      else (.ok (), [])) fun _ =>
    (if pg.vdd ≠ .null then (env.regulatorDisableRes, [.regulatorDisable])
    else (env.pwrgateSetRes false, [.pwrgateSet pg.id false]))

/-! ## Claim-side renderings of the sequences

The following definitions restate the power sequences the way the claims word
them — per-step segments over index ranges in registration order — rather
than by the C loops' recursion, so that proving them equal to (or different
from) the code model is a genuine comparison. -/

/-- Claim-side view of a first-failure-aborts bundle operation applied to
indices `i, ..., i+len-1` in registration order: if every call succeeds the
trace is the whole range; otherwise the trace stops at the first failing
index, whose error is returned. -/
def claimSeqFrom (i len : Nat) (res : Nat → KRes) (mk : Nat → Ev) :
    KRes × List Ev :=
  match (List.range' i len).find? (fun j => ! resOk (res j)) with
  | none => (.ok (), (List.range' i len).map mk)
  | some j => (res j, (List.range' i (j + 1 - i)).map mk)

/-- Claim-side bundle operation over the first `min n bound` indices. -/
def claimSeq (n bound : Nat) (res : Nat → KRes) (mk : Nat → Ev) :
    KRes × List Ev :=
  claimSeqFrom 0 (min n bound) res mk

/-- Claim-side view of the clock-enable bundle: enable in registration order;
on the first failure, unwind the already-enabled clocks in reverse order. -/
def claimEnableFrom (env : Env) (i len : Nat) : KRes × List Ev :=
  match (List.range' i len).find? (fun j => ! resOk (env.clkEnableRes j)) with
  | none => (.ok (), (List.range' i len).map Ev.clkEnable)
  | some j =>
    (env.clkEnableRes j,
      (List.range' i (j + 1 - i)).map Ev.clkEnable ++
        ((List.range' i (j - i)).reverse).map Ev.clkDisable)

/-- Claim-side clock-enable over the domain's clock bundle. -/
def claimEnableClocks (env : Env) (pg : Powergate) : KRes × List Ev :=
  claimEnableFrom env 0 (min pg.numClk MAX_CLK_NUM)

/-- The domain's clocks in registration order, as disable events. -/
def claimDisableClocks (pg : Powergate) : List Ev :=
  (List.range' 0 (min pg.numClk MAX_CLK_NUM)).map Ev.clkDisable

/-- Power-on sequence exactly as claim C1 states it: fixed step order with a
10 µs settle delay after **every** hardware step, and the final clock-disable
done in **reverse** registration order. -/
def power_on_claimC1 (env : Env) (soc : Soc) (pg : Powergate) :
    KRes × List Ev :=
  andThen
    (if pg.is_vdd then
      match tegra_powergate_get_regulator env pg with
      | (.ok (), _) => (env.regulatorEnableRes, [.regulatorGet, .regulatorEnable])
      | (.error e, _) => (.error e, [.regulatorGet])
    else (env.pwrgateSetRes true, [.pwrgateSet pg.id true])) fun _ =>
  andThen (.ok (), [.udelay 10]) fun _ =>
  andThen
    (if soc.is_legacy_powergate then
      andThen (claimSeq pg.numReset MAX_RESET_NUM env.resetAssertRes .resetAssert)
        fun _ => (.ok (), [.udelay 10])
    else (.ok (), [])) fun _ =>
  andThen
    (if pg.id ≠ TEGRA_POWERGATE_PCIE then
      andThen (claimEnableClocks env pg) fun _ => (.ok (), [.udelay 10])
    else (.ok (), [])) fun _ =>
  andThen (tegra_powergate_remove_clamping (some soc) pg.id) fun _ =>
  andThen (.ok (), [.udelay 10]) fun _ =>
  andThen (claimSeq pg.numReset MAX_RESET_NUM env.resetDeassertRes .resetDeassert)
    fun _ =>
  andThen (.ok (), [.udelay 10]) fun _ =>
  andThen (claimSeq pg.numSwgroup MAX_SWGROUP_NUM env.mcFlushDoneRes .mcFlushDone)
    fun _ =>
  andThen (.ok (), [.udelay 10]) fun _ =>
  (if pg.id ≠ TEGRA_POWERGATE_PCIE then
    (.ok (), (claimDisableClocks pg).reverse ++ [.udelay 10])
  else (.ok (), []))

/-- Power-on sequence as claim C1 must be amended to match the code: same
fixed step order, but the final clock-disable is in registration (forward)
order and is not followed by a settle delay. -/
def power_on_amendedC1 (env : Env) (soc : Soc) (pg : Powergate) :
    KRes × List Ev :=
  andThen
    (if pg.is_vdd then
      match tegra_powergate_get_regulator env pg with
      | (.ok (), _) => (env.regulatorEnableRes, [.regulatorGet, .regulatorEnable])
      | (.error e, _) => (.error e, [.regulatorGet])
    else (env.pwrgateSetRes true, [.pwrgateSet pg.id true])) fun _ =>
  andThen (.ok (), [.udelay 10]) fun _ =>
  andThen
    (if soc.is_legacy_powergate then
      andThen (claimSeq pg.numReset MAX_RESET_NUM env.resetAssertRes .resetAssert)
        fun _ => (.ok (), [.udelay 10])
    else (.ok (), [])) fun _ =>
  andThen
    (if pg.id ≠ TEGRA_POWERGATE_PCIE then
      andThen (claimEnableClocks env pg) fun _ => (.ok (), [.udelay 10])
    else (.ok (), [])) fun _ =>
  andThen (tegra_powergate_remove_clamping (some soc) pg.id) fun _ =>
  andThen (.ok (), [.udelay 10]) fun _ =>
  andThen (claimSeq pg.numReset MAX_RESET_NUM env.resetDeassertRes .resetDeassert)
    fun _ =>
  andThen (.ok (), [.udelay 10]) fun _ =>
  andThen (claimSeq pg.numSwgroup MAX_SWGROUP_NUM env.mcFlushDoneRes .mcFlushDone)
    fun _ =>
  andThen (.ok (), [.udelay 10]) fun _ =>
  (if pg.id ≠ TEGRA_POWERGATE_PCIE then (.ok (), claimDisableClocks pg)
  else (.ok (), []))

/-- Power-off sequence exactly as claim C2 states it: the final step chooses
the regulator path by the domain's external-regulator flag, and every
hardware step — the final one included — is followed by a 10 µs settle
delay. -/
def power_off_claimC2 (env : Env) (soc : Soc) (pg : Powergate) :
    KRes × List Ev :=
  if alwaysOn pg.id then (.error .inval, [])
  else
    andThen
      (if ¬ soc.is_legacy_powergate then
        andThen (claimEnableClocks env pg) fun _ =>
        andThen (.ok (), [.udelay 10]) fun _ =>
        andThen (claimSeq pg.numSwgroup MAX_SWGROUP_NUM env.mcFlushRes .mcFlush)
          fun _ => (.ok (), [.udelay 10])
      else (.ok (), [])) fun _ =>
    andThen (claimSeq pg.numReset MAX_RESET_NUM env.resetAssertRes .resetAssert)
      fun _ =>
    andThen (.ok (), [.udelay 10]) fun _ =>
    andThen
      (if ¬ soc.is_legacy_powergate then
        (.ok (), claimDisableClocks pg ++ [.udelay 10])
      else (.ok (), [])) fun _ =>
    (if pg.is_vdd then
      andThen (env.regulatorDisableRes, [.regulatorDisable]) fun _ =>
        (.ok (), [.udelay 10])
    else
      andThen (env.pwrgateSetRes false, [.pwrgateSet pg.id false]) fun _ =>
        (.ok (), [.udelay 10]))

/-- Power-off sequence as claim C2 must be amended to match the code: the
final step branches on whether a regulator pointer has actually been
recorded (`powergate->vdd != NULL`), not on the external-regulator flag, and
the final step is not followed by a settle delay. -/
def power_off_amendedC2 (env : Env) (soc : Soc) (pg : Powergate) :
    KRes × List Ev :=
  if alwaysOn pg.id then (.error .inval, [])
  else
    andThen
      (if ¬ soc.is_legacy_powergate then
        andThen (claimEnableClocks env pg) fun _ =>
        andThen (.ok (), [.udelay 10]) fun _ =>
        andThen (claimSeq pg.numSwgroup MAX_SWGROUP_NUM env.mcFlushRes .mcFlush)
          fun _ => (.ok (), [.udelay 10])
      else (.ok (), [])) fun _ =>
    andThen (claimSeq pg.numReset MAX_RESET_NUM env.resetAssertRes .resetAssert)
      fun _ =>
    andThen (.ok (), [.udelay 10]) fun _ =>
    andThen
      (if ¬ soc.is_legacy_powergate then
        (.ok (), claimDisableClocks pg ++ [.udelay 10])
      else (.ok (), [])) fun _ =>
    (if pg.vdd ≠ .null then (env.regulatorDisableRes, [.regulatorDisable])
    else (env.pwrgateSetRes false, [.pwrgateSet pg.id false]))

/-! ## Concrete fixtures for counterexamples and witnesses -/

/-- Environment in which every external call succeeds. -/
def envAllOk : Env where
  regulatorLookup := .found
  regulatorEnableRes := .ok ()
  regulatorDisableRes := .ok ()
  pwrgateSetRes := fun _ => .ok ()
  clkEnableRes := fun _ => .ok ()
  resetAssertRes := fun _ => .ok ()
  resetDeassertRes := fun _ => .ok ()
  mcFlushRes := fun _ => .ok ()
  mcFlushDoneRes := fun _ => .ok ()

/-- A non-legacy chip variant with 25 partitions and no dedicated GPU clamp
register. -/
def socT114 : Soc where
  num_powergates := 25
  has_gpu_clamps := false
  is_legacy_powergate := false

/-- An internally-gated domain (partition `L2`) with two clocks. -/
def pgTwoClk : Powergate where
  id := TEGRA_POWERGATE_L2
  numClk := 2
  numReset := 0
  numSwgroup := 0
  is_vdd := false
  vdd := .null

/-- An external-regulator-backed domain (partition `DIS`) whose regulator has
never been acquired (`vdd == NULL`), e.g. because the regulator was not ready
at registration. -/
def pgVddNull : Powergate where
  id := TEGRA_POWERGATE_DIS
  numClk := 0
  numReset := 0
  numSwgroup := 0
  is_vdd := true
  vdd := .null

/-- The CPU partition (always-on), with a nonempty resource bundle so that a
skipped side effect would be visible in the trace. -/
def pgCpu : Powergate where
  id := TEGRA_POWERGATE_CPU
  numClk := 1
  numReset := 1
  numSwgroup := 1
  is_vdd := false
  vdd := .null

/-- A chip variant with the dedicated GPU clamp register. -/
def socGpu : Soc where
  num_powergates := 25
  has_gpu_clamps := true
  is_legacy_powergate := false

/-- Power-gate status oracle whose bit 0 is already set, with minimal
10 µs sleeps. -/
def envPgIdle : PgSetEnv where
  reads := fun _ => 1
  sleep := fun _ => 10

/-- Simulated hot-reset status register for claim C5: four pairwise-distinct
transient values on reads 0–3, then the constant value `2` (bit 1 set) from
read 4 onward. -/
def readsSim : Nat → Nat := fun k => if k < 4 then 10 + k else 2

/-- A hot-reset descriptor like the `tegra114_mc_hotreset` table rows:
control register `0x200`, status register `0x204`, one flush bit. -/
def hr0 : tegra_mc_hotreset where
  swgroup := 0
  ctrl := 0x200
  status := 0x204
  bit := 1

/-- I/O-rail oracle with a 408 MHz pclk, an all-zero request register and a
status register reading zero. -/
def env408 : RailEnv where
  pclkRate := .ok 408000000
  reqRead := 0
  reads := fun _ => 0
  sleep := fun _ => 250

/-! ## Theorems -/

theorem seqOpsGo_eq_claimSeqFrom (pres : Nat) (res : Nat → KRes) (mk : Nat → Ev) :
    ∀ fuel i, seqOpsGo pres res mk i fuel =
      claimSeqFrom i (min (pres - i) fuel) res mk := by
  intro fuel
  induction fuel with
  | zero =>
    intro i
    simp [seqOpsGo, claimSeqFrom]
  | succ fuel ih =>
    intro i
    by_cases hi : i < pres
    · have hlen : min (pres - i) (fuel + 1) = min (pres - (i + 1)) fuel + 1 := by
        omega
      simp only [seqOpsGo, if_pos hi, claimSeqFrom, hlen, List.range'_succ]
      cases hres : res i with
      | error e =>
        rw [List.find?_cons_of_pos _ (by simp [hres, resOk])]
        have h1 : i + 1 - i = 1 := by omega
        simp [hres, h1]
      | ok u =>
        cases u
        rw [List.find?_cons_of_neg _ (by simp [hres, resOk])]
        rw [ih (i + 1)]
        rw [claimSeqFrom]
        cases hf : (List.range' (i + 1) (min (pres - (i + 1)) fuel)).find?
            (fun j => ! resOk (res j)) with
        | none => simp
        | some j =>
          have hj : i + 1 ≤ j := by
            have hm := List.mem_of_find?_eq_some hf
            obtain ⟨d, _, rfl⟩ := List.mem_range'.mp hm
            omega
          have h2 : j + 1 - i = (j + 1 - (i + 1)) + 1 := by omega
          simp [h2, List.range'_succ]
    · have h0 : min (pres - i) (fuel + 1) = 0 := by omega
      simp only [seqOpsGo, if_neg hi, h0]
      simp [claimSeqFrom]

theorem enableClocksGo_eq_claimEnableFrom (env : Env) (pg : Powergate) :
    ∀ fuel i, enableClocksGo env pg i fuel =
      claimEnableFrom env i (min (pg.numClk - i) fuel) := by
  intro fuel
  induction fuel with
  | zero =>
    intro i
    simp [enableClocksGo, claimEnableFrom]
  | succ fuel ih =>
    intro i
    by_cases hi : i < pg.numClk
    · have hlen : min (pg.numClk - i) (fuel + 1) =
          min (pg.numClk - (i + 1)) fuel + 1 := by omega
      simp only [enableClocksGo, if_pos hi, claimEnableFrom, hlen,
        List.range'_succ]
      cases hres : env.clkEnableRes i with
      | error e =>
        rw [List.find?_cons_of_pos _ (by simp [hres, resOk])]
        have h1 : i + 1 - i = 1 := by omega
        have h0 : i - i = 0 := by omega
        simp [hres, h1, h0]
      | ok u =>
        cases u
        rw [List.find?_cons_of_neg _ (by simp [hres, resOk])]
        rw [ih (i + 1)]
        rw [claimEnableFrom]
        cases hf : (List.range' (i + 1) (min (pg.numClk - (i + 1)) fuel)).find?
            (fun j => ! resOk (env.clkEnableRes j)) with
        | none => simp
        | some j =>
          have hj : i + 1 ≤ j := by
            have hm := List.mem_of_find?_eq_some hf
            obtain ⟨d, _, rfl⟩ := List.mem_range'.mp hm
            omega
          have hjerr : ∃ e, env.clkEnableRes j = .error e := by
            have hp := List.find?_some hf
            cases hq : env.clkEnableRes j with
            | ok u => cases u; rw [hq] at hp; simp [resOk] at hp
            | error e => exact ⟨e, rfl⟩
          obtain ⟨e, he⟩ := hjerr
          have h2 : j + 1 - i = (j + 1 - (i + 1)) + 1 := by omega
          have h3 : j - i = (j - (i + 1)) + 1 := by omega
          simp [he, h2, h3, List.range'_succ, List.append_assoc]
    · have h0 : min (pg.numClk - i) (fuel + 1) = 0 := by omega
      simp only [enableClocksGo, if_neg hi, h0]
      simp [claimEnableFrom]

theorem disableClocksGo_eq (pg : Powergate) :
    ∀ fuel i, disableClocksGo pg i fuel =
      (List.range' i (min (pg.numClk - i) fuel)).map Ev.clkDisable := by
  intro fuel
  induction fuel with
  | zero =>
    intro i
    simp [disableClocksGo]
  | succ fuel ih =>
    intro i
    by_cases hi : i < pg.numClk
    · have hlen : min (pg.numClk - i) (fuel + 1) =
          min (pg.numClk - (i + 1)) fuel + 1 := by omega
      simp only [disableClocksGo, if_pos hi, hlen, List.range'_succ]
      rw [ih (i + 1)]
      simp
    · have h0 : min (pg.numClk - i) (fuel + 1) = 0 := by omega
      simp [disableClocksGo, if_neg hi, h0]

theorem enable_clocks_eq_claim (env : Env) (pg : Powergate) :
    tegra_pmc_powergate_enable_clocks env pg = claimEnableClocks env pg := by
  rw [tegra_pmc_powergate_enable_clocks, claimEnableClocks,
    enableClocksGo_eq_claimEnableFrom]
  simp

theorem disable_clocks_eq_claim (pg : Powergate) :
    tegra_pmc_powergate_disable_clocks pg = claimDisableClocks pg := by
  rw [tegra_pmc_powergate_disable_clocks, claimDisableClocks, disableClocksGo_eq]
  simp

theorem reset_assert_eq_claim (env : Env) (pg : Powergate) :
    tegra_pmc_powergate_reset_assert env pg =
      claimSeq pg.numReset MAX_RESET_NUM env.resetAssertRes .resetAssert := by
  rw [tegra_pmc_powergate_reset_assert, claimSeq, seqOpsGo_eq_claimSeqFrom]
  simp

theorem reset_deassert_eq_claim (env : Env) (pg : Powergate) :
    tegra_pmc_powergate_reset_deassert env pg =
      claimSeq pg.numReset MAX_RESET_NUM env.resetDeassertRes .resetDeassert := by
  rw [tegra_pmc_powergate_reset_deassert, claimSeq, seqOpsGo_eq_claimSeqFrom]
  simp

theorem mc_flush_eq_claim (env : Env) (pg : Powergate) :
    tegra_pmc_powergate_mc_flush env pg =
      claimSeq pg.numSwgroup MAX_SWGROUP_NUM env.mcFlushRes .mcFlush := by
  rw [tegra_pmc_powergate_mc_flush, claimSeq, seqOpsGo_eq_claimSeqFrom]
  simp

theorem mc_flush_done_eq_claim (env : Env) (pg : Powergate) :
    tegra_pmc_powergate_mc_flush_done env pg =
      claimSeq pg.numSwgroup MAX_SWGROUP_NUM env.mcFlushDoneRes .mcFlushDone := by
  rw [tegra_pmc_powergate_mc_flush_done, claimSeq, seqOpsGo_eq_claimSeqFrom]
  simp

/-- C1, counterexample: claim C1 as stated is false.  For a non-legacy,
internally-gated domain with two clocks (and every external call succeeding),
the power-on sequence of the code ends by disabling the clocks in
registration order `clk[0], clk[1]` with no trailing settle delay, whereas
the claim requires reverse order `clk[1], clk[0]` followed by a 10 µs settle
delay. -/
theorem power_on_claimC1_counterexample :
    (tegra_pmc_powergate_power_on envAllOk socT114 pgTwoClk).2 ≠
      (power_on_claimC1 envAllOk socT114 pgTwoClk).2 := by
  decide

/-- C1 (amended): for every domain, environment and chip variant, powerOn
executes exactly the fixed step order of the claim — regulator-or-gate on,
settle delay, legacy-only reset assert, clock enable in registration order
with reverse unwind on first failure (skipped for PCIE), clamp removal,
reset deassert, hot-reset-done signalling to every client group, each checked
step followed by a 10 µs settle delay, first failure aborting with its error
and no rollback — except that the final clock disable (also skipped for
PCIE) is in registration order, not reverse, and is not followed by a settle
delay. -/
theorem power_on_matches_amended_claim (env : Env) (soc : Soc)
    (pg : Powergate) :
    tegra_pmc_powergate_power_on env soc pg = power_on_amendedC1 env soc pg := by
  simp only [tegra_pmc_powergate_power_on, power_on_amendedC1,
    enable_clocks_eq_claim, disable_clocks_eq_claim, reset_assert_eq_claim,
    reset_deassert_eq_claim, mc_flush_done_eq_claim]

/-- C2, counterexample: claim C2 as stated is false.  For an
external-regulator-backed domain whose regulator pointer was never
successfully acquired (`vdd == NULL`), the code's power-off ends with a
partition power-gate write instead of the regulator disable the claim
requires, and the final step is not followed by a settle delay. -/
theorem power_off_claimC2_counterexample :
    (tegra_pmc_powergate_power_off envAllOk socT114 pgVddNull).2 ≠
      (power_off_claimC2 envAllOk socT114 pgVddNull).2 := by
  decide

/-- C2 (amended): for every domain, environment and chip variant, powerOff
executes exactly the fixed step order of the claim — always-on rejection,
non-legacy-only clock enable plus hot-reset-flush signalling, reset assert,
non-legacy-only clock disable, each followed by a 10 µs settle delay, first
failure aborting with its error — except that the final step disables the
regulator exactly when a regulator pointer is recorded (`vdd != NULL`)
rather than when the domain is flagged external-regulator-backed, and that
final step is not followed by a settle delay. -/
theorem power_off_matches_amended_claim (env : Env) (soc : Soc)
    (pg : Powergate) :
    tegra_pmc_powergate_power_off env soc pg = power_off_amendedC2 env soc pg := by
  simp only [tegra_pmc_powergate_power_off, power_off_amendedC2,
    enable_clocks_eq_claim, disable_clocks_eq_claim, reset_assert_eq_claim,
    mc_flush_eq_claim]

/-- C3: powerOff on any id of the always-on exclusion set (the CPU
partitions, C0NC and IRAM) always fails with the always-on rejection error
(`-EINVAL`, the spec's Unsupported), for every environment, chip variant and
domain state, and performs no side effect at all before failing: the event
trace is empty. -/
theorem power_off_always_on_rejected (env : Env) (soc : Soc) (pg : Powergate)
    (h : pg.id = TEGRA_POWERGATE_CPU ∨ pg.id = TEGRA_POWERGATE_CPU1 ∨
      pg.id = TEGRA_POWERGATE_CPU2 ∨ pg.id = TEGRA_POWERGATE_CPU3 ∨
      pg.id = TEGRA_POWERGATE_CPU0 ∨ pg.id = TEGRA_POWERGATE_C0NC ∨
      pg.id = TEGRA_POWERGATE_IRAM) :
    tegra_pmc_powergate_power_off env soc pg = (.error .inval, []) := by
  rw [tegra_pmc_powergate_power_off, if_pos (show alwaysOn pg.id from h)]

/-- C3, witness: powering off the CPU partition (which has clocks, resets and
a client group registered) is rejected with an empty trace. -/
theorem power_off_always_on_rejected_witness :
    tegra_pmc_powergate_power_off envAllOk socT114 pgCpu =
      (.error .inval, []) :=
  power_off_always_on_rejected envAllOk socT114 pgCpu (Or.inl rfl)

/-! ### Power-gate polling helpers -/

theorem pgPollGo_isSome (env : PgSetEnv) (id : Nat) (target : Bool)
    (hs : ∀ i, 10 ≤ env.sleep i) :
    ∀ fuel k now, 50000 ≤ now + 10 * fuel →
      ∃ r, pgPollGo env id target k now (fuel + 1) = some r := by
  intro fuel
  induction fuel with
  | zero =>
    intro k now h
    have hn : ¬ now < 50000 := by omega
    exact ⟨(.error .etimedout, k - 1), by simp [pgPollGo, hn]⟩
  | succ fuel ih =>
    intro k now h
    by_cases hlt : now < 50000
    · by_cases hm : (env.reads k).testBit id = target
      · exact ⟨(.ok (), k), by simp [pgPollGo, hlt, hm]⟩
      · obtain ⟨r, hr⟩ := ih (k + 1) (now + env.sleep k) (by have := hs k; omega)
        refine ⟨r, ?_⟩
        simp only [pgPollGo, if_pos hlt, if_neg hm]
        exact hr
    · exact ⟨(.error .etimedout, k - 1), by simp [pgPollGo, hlt]⟩

theorem pgPollGo_sound (env : PgSetEnv) (id : Nat) (target : Bool) :
    ∀ fuel k now r p, 1 ≤ k →
      pgPollGo env id target k now fuel = some (r, p) →
      (r = .ok () ∧ k ≤ p ∧ (env.reads p).testBit id = target ∧
        ∀ j, k ≤ j → j < p → (env.reads j).testBit id ≠ target) ∨
      (r = .error .etimedout ∧
        ∀ j, k ≤ j → j ≤ p → (env.reads j).testBit id ≠ target) := by
  intro fuel
  induction fuel with
  | zero =>
    intro k now r p _ h
    simp [pgPollGo] at h
  | succ fuel ih =>
    intro k now r p hk h
    by_cases hlt : now < 50000
    · by_cases hm : (env.reads k).testBit id = target
      · simp [pgPollGo, hlt, hm] at h
        obtain ⟨rfl, rfl⟩ := h
        exact Or.inl ⟨rfl, le_refl _, hm, fun j h1 h2 => absurd h2 (by omega)⟩
      · simp only [pgPollGo, if_pos hlt, if_neg hm] at h
        rcases ih (k + 1) (now + env.sleep k) r p (by omega) h with h1 | h2
        · obtain ⟨hr, hkp, hp, hall⟩ := h1
          refine Or.inl ⟨hr, by omega, hp, fun j hj1 hj2 => ?_⟩
          rcases Nat.eq_or_lt_of_le hj1 with rfl | hlt'
          · exact hm
          · exact hall j (by omega) hj2
        · obtain ⟨hr, hall⟩ := h2
          refine Or.inr ⟨hr, fun j hj1 hj2 => ?_⟩
          rcases Nat.eq_or_lt_of_le hj1 with rfl | hlt'
          · exact hm
          · exact hall j (by omega) hj2
    · simp [pgPollGo, hlt] at h
      obtain ⟨rfl, rfl⟩ := h
      exact Or.inr ⟨rfl, fun j h1 h2 => absurd (Nat.le_trans h1 h2) (by omega)⟩

/-- C4: the power-gate primitive is idempotent — if the status bit already
equals the requested state it succeeds immediately with zero toggle writes
and zero polls — and otherwise performs exactly one toggle write followed by
polling at a ≥ 10 µs interval; with the 50 ms deadline this needs at most
5000 polls (fuel 5001 always yields a result), the outcome is success or
`-ETIMEDOUT`, success happens at the first matching polled read, and timeout
means no polled read within the window matched. -/
theorem tegra_pmc_powergate_set_spec (env : PgSetEnv) (id : Nat) (b : Bool)
    (hs : ∀ i, 10 ≤ env.sleep i) :
    ((env.reads 0).testBit id = b →
      ∀ fuel, tegra_pmc_powergate_set env id b fuel = some ⟨.ok (), 0, 0⟩) ∧
    ((env.reads 0).testBit id ≠ b →
      ∃ o : PgSetOut, tegra_pmc_powergate_set env id b 5001 = some o ∧
        o.toggleWrites = 1 ∧
        (o.res = .ok () ∨ o.res = .error .etimedout) ∧
        (o.res = .ok () → 1 ≤ o.polls ∧ (env.reads o.polls).testBit id = b ∧
          ∀ j, 1 ≤ j → j < o.polls → (env.reads j).testBit id ≠ b) ∧
        (o.res = .error .etimedout →
          ∀ j, 1 ≤ j → j ≤ o.polls → (env.reads j).testBit id ≠ b)) := by
  constructor
  · intro h fuel
    simp [tegra_pmc_powergate_set, h]
  · intro h
    obtain ⟨⟨r, p⟩, hr⟩ := pgPollGo_isSome env id b hs 5000 1 0 (by omega)
    norm_num at hr
    refine ⟨⟨r, 1, p⟩, ?_, rfl, ?_, ?_, ?_⟩
    · simp [tegra_pmc_powergate_set, h, hr]
    · rcases pgPollGo_sound env id b 5001 1 0 r p (le_refl 1) hr with h1 | h2
      · exact Or.inl h1.1
      · exact Or.inr h2.1
    · intro hok
      rcases pgPollGo_sound env id b 5001 1 0 r p (le_refl 1) hr with h1 | h2
      · exact ⟨h1.2.1, h1.2.2.1, h1.2.2.2⟩
      · rw [h2.1] at hok; cases hok
    · intro htmo
      rcases pgPollGo_sound env id b 5001 1 0 r p (le_refl 1) hr with h1 | h2
      · rw [h1.1] at htmo; cases htmo
      · exact h2.2

/-- C4, witness: with the partition bit already set, requesting the on state
returns success with zero toggle writes and zero polls, for any fuel. -/
theorem tegra_pmc_powergate_set_spec_witness :
    tegra_pmc_powergate_set envPgIdle 0 true 1 = some ⟨.ok (), 0, 0⟩ :=
  (tegra_pmc_powergate_set_spec envPgIdle 0 true
    (fun _ => Nat.le_refl 10)).1 (by decide) 1

/-! ### Hot-reset stabilization helpers -/

theorem stableCheckGo_succ (reads : Nat → Nat) (prv k fuel : Nat) :
    stableCheckGo reads prv k (fuel + 1) =
      if reads k ≠ prv then (false, 0, k + 1)
      else stableCheckGo reads prv (k + 1) fuel := rfl

theorem flushLoopGo_succ (reads : Nat → Nat) (bit k fuel : Nat) :
    flushLoopGo reads bit k (fuel + 1) =
      match tegra114_stable_hotreset_check reads k with
      | (st, val, k') =>
        if st && val.testBit bit then some k' else flushLoopGo reads bit k' fuel :=
  rfl

theorem stableCheckGo_fail (reads : Nat → Nat) (prv k fuel : Nat)
    (h : reads k ≠ prv) :
    stableCheckGo reads prv k (fuel + 1) = (false, 0, k + 1) := by
  rw [stableCheckGo_succ, if_pos h]

theorem stableCheckGo_all (reads : Nat → Nat) (prv : Nat) :
    ∀ fuel k, (∀ j, k ≤ j → j < k + fuel → reads j = prv) →
      stableCheckGo reads prv k fuel = (true, prv, k + fuel) := by
  intro fuel
  induction fuel with
  | zero => intro k _; rfl
  | succ fuel ih =>
    intro k h
    have hk : reads k = prv := h k (le_refl k) (by omega)
    rw [stableCheckGo_succ, if_neg (fun hc => hc hk),
      ih (k + 1) (fun j h1 h2 => h j (by omega) (by omega))]
    have : k + 1 + fuel = k + (fuel + 1) := by omega
    rw [this]

theorem stableCheckGo_true (reads : Nat → Nat) (prv : Nat) :
    ∀ fuel k v k', stableCheckGo reads prv k fuel = (true, v, k') →
      v = prv ∧ k' = k + fuel ∧ ∀ j, k ≤ j → j < k + fuel → reads j = prv := by
  intro fuel
  induction fuel with
  | zero =>
    intro k v k' h
    simp [stableCheckGo] at h
    obtain ⟨rfl, rfl⟩ := h
    exact ⟨rfl, by omega, fun j h1 h2 => by omega⟩
  | succ fuel ih =>
    intro k v k' h
    by_cases hm : reads k ≠ prv
    · rw [stableCheckGo_fail reads prv k fuel hm] at h
      simp at h
    · push_neg at hm
      rw [stableCheckGo_succ, if_neg (fun hc => hc hm)] at h
      obtain ⟨h1, h2, h3⟩ := ih (k + 1) v k' h
      refine ⟨h1, by omega, fun j hj1 hj2 => ?_⟩
      rcases Nat.eq_or_lt_of_le hj1 with rfl | hlt
      · exact hm
      · exact h3 j (by omega) (by omega)

/-- C5: a status value is accepted by the stabilization check only after six
consecutive identical reads (the initial read plus five repeats — in
particular at least 5 consecutive identical reads), and for a simulated
status register returning four pairwise-distinct transient values on the
first four reads and a constant value with the target bit set from the fifth
read on, the flush loop does not converge on its first two attempts (which
consume those four reads) and converges on the third attempt only after the
six identical reads 4–9, with a 10 µs delay before each attempt. -/
theorem hotreset_flush_stabilization :
    (∀ (reads : Nat → Nat) (k v k' : Nat),
      tegra114_stable_hotreset_check reads k = (true, v, k') →
      k' = k + 6 ∧ ∀ j, k ≤ j → j < k + 6 → reads j = v) ∧
    (∀ (reads : Nat → Nat) (bit c : Nat),
      reads 1 ≠ reads 0 → reads 3 ≠ reads 2 →
      (∀ j, 4 ≤ j → reads j = c) → Nat.testBit c bit = true →
      flushLoopGo reads bit 0 1 = none ∧
      flushLoopGo reads bit 0 2 = none ∧
      ∀ fuel, flushLoopGo reads bit 0 (fuel + 3) = some 10) := by
  constructor
  · intro reads k v k' h
    replace h : stableCheckGo reads (reads k) (k + 1) 5 = (true, v, k') := h
    obtain ⟨hv, hk', hall⟩ := stableCheckGo_true reads (reads k) 5 (k + 1) v k' h
    refine ⟨by omega, fun j hj1 hj2 => ?_⟩
    rcases Nat.eq_or_lt_of_le hj1 with rfl | hlt
    · exact hv.symm
    · rw [hall j (by omega) (by omega), hv]
  · intro reads bit c h01 h23 h4 hbit
    have e4 : reads 4 = c := h4 4 (by omega)
    have hst1 : tegra114_stable_hotreset_check reads 0 = (false, 0, 2) :=
      stableCheckGo_fail reads (reads 0) 1 4 h01
    have hst2 : tegra114_stable_hotreset_check reads 2 = (false, 0, 4) :=
      stableCheckGo_fail reads (reads 2) 3 4 h23
    have hst3 : tegra114_stable_hotreset_check reads 4 = (true, c, 10) := by
      show stableCheckGo reads (reads 4) 5 5 = (true, c, 10)
      rw [e4]
      exact stableCheckGo_all reads c 5 5 (fun j hj1 _ => h4 j (by omega))
    have s1 : ∀ f, flushLoopGo reads bit 0 (f + 1) = flushLoopGo reads bit 2 f := by
      intro f; rw [flushLoopGo_succ, hst1]; simp
    have s2 : ∀ f, flushLoopGo reads bit 2 (f + 1) = flushLoopGo reads bit 4 f := by
      intro f; rw [flushLoopGo_succ, hst2]; simp
    have s3 : ∀ f, flushLoopGo reads bit 4 (f + 1) = some 10 := by
      intro f; rw [flushLoopGo_succ, hst3]; simp [hbit]
    exact ⟨(s1 0).trans rfl, (s1 1).trans ((s2 0).trans rfl),
      fun fuel => (s1 (fuel + 2)).trans ((s2 (fuel + 1)).trans (s3 fuel))⟩

/-- C5, witness: on the simulated register (bit 1, constant value 2 from the
fifth read on), the flush loop reports nothing after two attempts and
converges on the third having consumed ten reads. -/
theorem hotreset_flush_stabilization_witness :
    flushLoopGo readsSim 1 0 2 = none ∧ flushLoopGo readsSim 1 0 3 = some 10 := by
  have h := hotreset_flush_stabilization.2 readsSim 1 2 (by decide) (by decide)
    (fun j hj => by unfold readsSim; rw [if_neg (by omega)]) (by decide)
  exact ⟨h.2.1, h.2.2 0⟩

/-- C6: for every valid partition id, `tegra_powergate_remove_clamping`
performs exactly one clamp-release register write: for the 3D/GPU partition
on a variant with dedicated GPU clamps it writes `0` to `GPU_RG_CNTRL` (and
does not touch the shared `REMOVE_CLAMPING` register); in every other case it
writes to `REMOVE_CLAMPING` with mask `1 << PCIE` for the VDEC id, mask
`1 << VDEC` for the PCIE id, and mask `1 << id` otherwise — including 3D on a
variant without dedicated GPU clamps. -/
theorem remove_clamping_spec (soc : Soc) (id : Nat)
    (h : id < soc.num_powergates) :
    ∃ off v, tegra_powergate_remove_clamping (some soc) id =
        (.ok (), [.pmcWrite off v]) ∧
      (if id = TEGRA_POWERGATE_3D ∧ soc.has_gpu_clamps = true then
        off = GPU_RG_CNTRL ∧ v = 0 ∧ off ≠ REMOVE_CLAMPING
      else
        off = REMOVE_CLAMPING ∧
        v = (if id = TEGRA_POWERGATE_VDEC then 1 <<< TEGRA_POWERGATE_PCIE
            else if id = TEGRA_POWERGATE_PCIE then 1 <<< TEGRA_POWERGATE_VDEC
            else 1 <<< id)) := by
  have hle : ¬ soc.num_powergates ≤ id := Nat.not_le.mpr h
  by_cases h3 : id = TEGRA_POWERGATE_3D ∧ soc.has_gpu_clamps = true
  · obtain ⟨rfl, hg⟩ := h3
    refine ⟨GPU_RG_CNTRL, 0, ?_, ?_⟩
    · simp [tegra_powergate_remove_clamping, hle, hg]
    · rw [if_pos ⟨rfl, hg⟩]
      exact ⟨rfl, rfl, by decide⟩
  · by_cases hv : id = TEGRA_POWERGATE_VDEC
    · subst hv
      refine ⟨REMOVE_CLAMPING, 1 <<< TEGRA_POWERGATE_PCIE, ?_, ?_⟩
      · simp [tegra_powergate_remove_clamping, hle, h3]
      · rw [if_neg h3]
        exact ⟨rfl, by rw [if_pos rfl]⟩
    · by_cases hp : id = TEGRA_POWERGATE_PCIE
      · subst hp
        refine ⟨REMOVE_CLAMPING, 1 <<< TEGRA_POWERGATE_VDEC, ?_, ?_⟩
        · simp [tegra_powergate_remove_clamping, hle, h3, hv]
        · rw [if_neg h3]
          exact ⟨rfl, by rw [if_neg hv, if_pos rfl]⟩
      · refine ⟨REMOVE_CLAMPING, 1 <<< id, ?_, ?_⟩
        · simp [tegra_powergate_remove_clamping, hle, h3, hv, hp]
        · rw [if_neg h3]
          exact ⟨rfl, by rw [if_neg hv, if_neg hp]⟩

/-- C6, witness: the 3D partition on a variant with dedicated GPU clamps
takes the `GPU_RG_CNTRL` path. -/
theorem remove_clamping_spec_witness :
    ∃ off v, tegra_powergate_remove_clamping (some socGpu) TEGRA_POWERGATE_3D =
        (.ok (), [.pmcWrite off v]) ∧
      (if TEGRA_POWERGATE_3D = TEGRA_POWERGATE_3D ∧ socGpu.has_gpu_clamps = true
      then
        off = GPU_RG_CNTRL ∧ v = 0 ∧ off ≠ REMOVE_CLAMPING
      else
        off = REMOVE_CLAMPING ∧
        v = (if TEGRA_POWERGATE_3D = TEGRA_POWERGATE_VDEC then
              1 <<< TEGRA_POWERGATE_PCIE
            else if TEGRA_POWERGATE_3D = TEGRA_POWERGATE_PCIE then
              1 <<< TEGRA_POWERGATE_VDEC
            else 1 <<< TEGRA_POWERGATE_3D)) :=
  remove_clamping_spec socGpu TEGRA_POWERGATE_3D (by decide)

/-- C7: `tegra114_mc_flush` and `tegra114_mc_flush_done` fail with `-EINVAL`
exactly when the controller or hot-reset descriptor is null, and any result
the flush loop produces on non-null arguments is success — there is no
timeout outcome; `tegra114_mc_flush_done` clears the group's bit, re-reads
the control register, and never reads the status register. -/
theorem mc_flush_error_contract :
    (∀ (mc : Option Unit) (hr : Option tegra_mc_hotreset) (ctrlRead : Nat)
      (reads : Nat → Nat) (fuel : Nat) (r : KRes × List McEv),
      tegra114_mc_flush mc hr ctrlRead reads fuel = some r →
      ((r.1 = .error .inval) ↔ (mc = none ∨ hr = none)) ∧
      (r.1 = .error .inval ∨ r.1 = .ok ())) ∧
    (∀ (mc : Option Unit) (hr : Option tegra_mc_hotreset) (ctrlRead : Nat),
      ((tegra114_mc_flush_done mc hr ctrlRead).1 = .error .inval ↔
        (mc = none ∨ hr = none)) ∧
      (∀ h, hr = some h → mc ≠ none →
        (tegra114_mc_flush_done mc hr ctrlRead).2 =
          [.read h.ctrl, .write h.ctrl (clearBit32 ctrlRead h.bit),
            .read h.ctrl] ∧
        (h.ctrl ≠ h.status →
          McEv.read h.status ∉ (tegra114_mc_flush_done mc hr ctrlRead).2))) := by
  constructor
  · intro mc hr ctrlRead reads fuel r hsome
    cases mc with
    | none =>
      cases hr with
      | none =>
        simp [tegra114_mc_flush] at hsome
        simp [← hsome]
      | some h =>
        simp [tegra114_mc_flush] at hsome
        simp [← hsome]
    | some u =>
      cases hr with
      | none =>
        simp [tegra114_mc_flush] at hsome
        simp [← hsome]
      | some h =>
        simp only [tegra114_mc_flush] at hsome
        cases hfl : flushLoopGo reads h.bit 0 fuel with
        | none => rw [hfl] at hsome; simp at hsome
        | some k =>
          rw [hfl] at hsome
          simp at hsome
          simp [← hsome]
  · intro mc hr ctrlRead
    cases mc with
    | none =>
      cases hr with
      | none =>
        refine ⟨by simp [tegra114_mc_flush_done], ?_⟩
        intro h hh _
        cases hh
      | some h =>
        refine ⟨by simp [tegra114_mc_flush_done], ?_⟩
        intro h' _ hmc
        exact absurd rfl hmc
    | some u =>
      cases hr with
      | none =>
        refine ⟨by simp [tegra114_mc_flush_done], ?_⟩
        intro h hh _
        cases hh
      | some h =>
        refine ⟨by simp [tegra114_mc_flush_done], ?_⟩
        intro h' hh _
        cases hh
        refine ⟨rfl, fun hne => ?_⟩
        simp [tegra114_mc_flush_done, hne.symm]

/-- C7, witness: a successful flush on a valid descriptor (control register
`0x200`, bit 1, a stable status oracle) returns success, which is not the
null-argument error. -/
theorem mc_flush_error_contract_witness :
    (((Except.ok (), [McEv.read 512, McEv.write 512 2, McEv.read 512]) :
        KRes × List McEv).1 = Except.error Kerr.inval ↔
      ((some () : Option Unit) = none ∨
        (some hr0 : Option tegra_mc_hotreset) = none)) ∧
    (((Except.ok (), [McEv.read 512, McEv.write 512 2, McEv.read 512]) :
        KRes × List McEv).1 = Except.error Kerr.inval ∨
      ((Except.ok (), [McEv.read 512, McEv.write 512 2, McEv.read 512]) :
        KRes × List McEv).1 = Except.ok ()) :=
  mc_flush_error_contract.1 (some ()) (some hr0) 0 (fun _ => 2) 1
    (Except.ok (), [McEv.read 512, McEv.write 512 2, McEv.read 512]) rfl

/-! ### I/O-rail polling helper -/

theorem io_rail_poll_isSome (env : RailEnv) (mask val : Nat)
    (hs : ∀ i, 250 ≤ env.sleep i) :
    ∀ fuel k now, 250 * 1000 ≤ now + 250 * fuel →
      ∃ r, tegra_io_rail_poll env mask val 250 k now (fuel + 1) = some r := by
  intro fuel
  induction fuel with
  | zero =>
    intro k now h
    have hn : ¬ now < 250 * 1000 := by omega
    exact ⟨.error .etimedout, by simp [tegra_io_rail_poll, hn]⟩
  | succ fuel ih =>
    intro k now h
    by_cases hlt : now < 250 * 1000
    · by_cases hm : (env.reads k) &&& mask = val
      · exact ⟨.ok (), by simp [tegra_io_rail_poll, hlt, hm]⟩
      · obtain ⟨r, hr⟩ := ih (k + 1) (now + env.sleep k) (by have := hs k; omega)
        refine ⟨r, ?_⟩
        simp only [tegra_io_rail_poll, if_pos hlt, if_neg hm]
        exact hr
    · exact ⟨.error .etimedout, by simp [tegra_io_rail_poll, hlt]⟩

/-- C8: the hot-reset flush stabilization loop has no timeout — on hardware
that never converges (status register stuck at `0`) it is still running after
any number of attempts — whereas the power-gate poll (50 ms deadline, ≥ 10 µs
sleeps, hence at most 5000 polls) and the I/O-rail poll (250 ms deadline,
≥ 250 µs sleeps, hence at most 1000 polls) always produce a result within
their bound. -/
theorem polling_loop_bounds :
    (∀ bit fuel k, flushLoopGo (fun _ => 0) bit k fuel = none) ∧
    (∀ (env : PgSetEnv) (id : Nat) (target : Bool), (∀ i, 10 ≤ env.sleep i) →
      ∃ r, pgPollGo env id target 1 0 5001 = some r) ∧
    (∀ (env : RailEnv) (mask val : Nat), (∀ i, 250 ≤ env.sleep i) →
      ∃ r, tegra_io_rail_poll env mask val 250 0 0 1001 = some r) := by
  refine ⟨?_, ?_, ?_⟩
  · intro bit fuel
    induction fuel with
    | zero => intro k; rfl
    | succ fuel ih =>
      intro k
      have hst : tegra114_stable_hotreset_check (fun _ => 0) k =
          (true, 0, k + 6) := rfl
      rw [flushLoopGo_succ, hst]
      simp [Nat.zero_testBit, ih]
  · intro env id target hs
    obtain ⟨r, hr⟩ := pgPollGo_isSome env id target hs 5000 1 0 (by omega)
    norm_num at hr
    exact ⟨r, hr⟩
  · intro env mask val hs
    obtain ⟨r, hr⟩ := io_rail_poll_isSome env mask val hs 1000 0 0 (by omega)
    norm_num at hr
    exact ⟨r, hr⟩

/-- C8, witness: the stuck status register keeps the flush loop running after
seven attempts, while the two bounded polls yield results at their fuel
bounds. -/
theorem polling_loop_bounds_witness :
    flushLoopGo (fun _ => 0) 0 0 7 = none ∧
    (∃ r, pgPollGo envPgIdle 0 false 1 0 5001 = some r) ∧
    (∃ r, tegra_io_rail_poll env408 1 1 250 0 0 1001 = some r) :=
  ⟨polling_loop_bounds.1 0 7 0,
    polling_loop_bounds.2.1 envPgIdle 0 false (fun _ => Nat.le_refl 10),
    polling_loop_bounds.2.2 env408 1 1 (fun _ => Nat.le_refl 250)⟩

/-- C9: every rail id whose bit position within its bank is 30 or 31 (ids 30,
31, 62, 63) and every id above 63 makes both `tegra_io_rail_power_on` and
`tegra_io_rail_power_off` fail with `-EINVAL` before any register write: the
write trace is empty — the sample-enable, timing and request registers are
untouched. -/
theorem io_rail_reserved_id_rejected (env : RailEnv) (id fuel : Nat)
    (h : id % 32 = 30 ∨ id % 32 = 31 ∨ 63 < id) :
    tegra_io_rail_power_on env id fuel = some (.error .inval, []) ∧
    tegra_io_rail_power_off env id fuel = some (.error .inval, []) := by
  have hp : tegra_io_rail_prepare env id = (.error .inval, []) := by
    have hc : id > 63 ∨ id % 32 = 30 ∨ id % 32 = 31 := by omega
    simp [tegra_io_rail_prepare, hc]
  constructor
  · simp [tegra_io_rail_power_on, hp]
  · simp [tegra_io_rail_power_off, hp]

/-- C9, witness: rail id 30 is rejected by both directions with no writes. -/
theorem io_rail_reserved_id_rejected_witness :
    tegra_io_rail_power_on env408 30 5 = some (.error .inval, []) ∧
    tegra_io_rail_power_off env408 30 5 = some (.error .inval, []) :=
  io_rail_reserved_id_rejected env408 30 5 (Or.inl (by norm_num))

/-- C10: for a reference-clock rate `R > 0` and a valid rail id, the prepare
step writes `SEL_DPD_TIM := ⌈200 / ⌈10⁹ / R⌉⌉` (exact integer ceiling
division applied twice) right after enabling sampling: the tick length `t` is
the least number with `R·t ≥ 10⁹` and the programmed value `v` is the least
number with `t·v ≥ 200` (the 200 ns requirement in clock ticks, rounded
up). -/
theorem io_rail_timing_value (env : RailEnv) (id rate : Nat)
    (hr : env.pclkRate = .ok rate) (hR : 0 < rate)
    (hid : ¬ (id > 63 ∨ id % 32 = 30 ∨ id % 32 = 31)) :
    ∃ t v, (tegra_io_rail_prepare env id).2 =
        [(DPD_SAMPLE, DPD_SAMPLE_ENABLE), (SEL_DPD_TIM, v)] ∧
      t = 1000000000 ⌈/⌉ rate ∧ v = 200 ⌈/⌉ t ∧
      1000000000 ≤ rate * t ∧ (∀ w, 1000000000 ≤ rate * w → t ≤ w) ∧
      200 ≤ t * v ∧ (∀ w, 200 ≤ t * w → v ≤ w) := by
  have e : ∀ a b : Nat, DIV_ROUND_UP a b = a ⌈/⌉ b := fun _ _ => rfl
  have g1 : 1000000000 ≤ rate * (1000000000 ⌈/⌉ rate) := by
    have := le_smul_ceilDiv (b := (1000000000 : Nat)) hR
    rwa [smul_eq_mul] at this
  have ht : 0 < 1000000000 ⌈/⌉ rate := by
    rcases Nat.eq_zero_or_pos (1000000000 ⌈/⌉ rate) with h0 | h0
    · rw [h0, Nat.mul_zero] at g1; omega
    · exact h0
  refine ⟨1000000000 ⌈/⌉ rate, 200 ⌈/⌉ (1000000000 ⌈/⌉ rate), ?_, rfl, rfl,
    g1, ?_, ?_, ?_⟩
  · simp [tegra_io_rail_prepare, hid, hr, e]
  · intro w hw
    exact (ceilDiv_le_iff_le_mul hR).mpr hw
  · have := le_smul_ceilDiv (b := (200 : Nat)) ht
    rwa [smul_eq_mul] at this
  · intro w hw
    exact (ceilDiv_le_iff_le_mul ht).mpr hw

/-- C10, witness: at R = 408 MHz the tick is 3 ns and the programmed timing
value is 67. -/
theorem io_rail_timing_value_witness :
    (tegra_io_rail_prepare env408 0).2 =
      [(DPD_SAMPLE, DPD_SAMPLE_ENABLE), (SEL_DPD_TIM, 67)] := by
  obtain ⟨t, v, hw, ht, hv, -⟩ :=
    io_rail_timing_value env408 0 408000000 rfl (by norm_num) (by decide)
  rw [hw]
  subst hv
  subst ht
  decide

end TegraPmc
